import Mathlib

/-!
Shallow embedding of `app.py` (a small Flask backend: a header-filtering
HTTP proxy, an SSE progress-queue endpoint, and CRUD forwarders to a fixed
upstream governance API), together with theorems settling the frozen claims
about it.

Conventions of the embedding:
* Python dicts are association lists `List (String × α)`; lookups return the
  first match (a Python dict has at most one entry per key, so first = only).
* Werkzeug `MultiDict` (query strings, `request.args`) is a raw association
  list that may repeat keys; `.get` returns the first value and `.items()`
  yields each distinct key once with its first value.
* The `requests` library is an oracle `UpstreamRequest → UpstreamResult`.
  Each handler returns the list of upstream requests it issued (its trace)
  together with the Flask response, so "exactly one upstream request" is a
  statement about the trace.
-/

namespace SceQc

/-- JSON values, as produced by the Python `json` module. -/
inductive Json where
  | null : Json
  | bool : Bool → Json
  | num : Int → Json
  | str : String → Json
  | arr : List Json → Json
  | obj : List (String × Json) → Json

/-- Escape a string the way `json.dumps` does (only the mandatory escapes;
the inputs exercised by the claims contain no control characters). -/
def jsonEscape (s : String) : String :=
  s.toList.foldl (fun acc c =>
    if c = '"' then acc ++ "\\\""
    else if c = '\\' then acc ++ "\\\\"
    else if c = '\n' then acc ++ "\\n"
    else acc.push c) ""

mutual

/-- Model of `json.dumps` in Python with its default separators
(`", "` between items, `": "` after keys). -/
def dumps : Json → String
  | .null => "null"
  | .bool true => "true"
  | .bool false => "false"
  | .num n => toString n
  | .str s => "\"" ++ jsonEscape s ++ "\""
  | .arr xs => "[" ++ dumpsArr xs ++ "]"
  | .obj fs => "\x7b" ++ dumpsObj fs ++ "\x7d"

def dumpsArr : List Json → String
  | [] => ""
  | [x] => dumps x
  | x :: y :: rest => dumps x ++ ", " ++ dumpsArr (y :: rest)

def dumpsObj : List (String × Json) → String
  | [] => ""
  | [(k, v)] => "\"" ++ jsonEscape k ++ "\": " ++ dumps v
  | (k, v) :: p :: rest =>
      "\"" ++ jsonEscape k ++ "\": " ++ dumps v ++ ", " ++ dumpsObj (p :: rest)

end

/-- Python truthiness of a JSON value (`bool(x)`): `None`, `False`, `0`,
`""`, `[]` and `\x7b\x7d` are falsy, everything else truthy. -/
def pyTruthy : Json → Bool
  | .null => false
  | .bool b => b
  | .num n => n != 0
  | .str s => s ≠ ""
  | .arr xs => ¬ xs.isEmpty
  | .obj fs => ¬ fs.isEmpty

/-- Python `str()` of a JSON value, as used inside an f-string.
Containers are approximated by their JSON encoding (the Python `repr` differs
in quoting; no claim exercises containers here). -/
def pyToStr : Json → String
  | .null => "None"
  | .bool true => "True"
  | .bool false => "False"
  | .num n => toString n
  | .str s => s
  | j => dumps j

/-- First-match lookup in an association list: Python `d.get(k)` /
`MultiDict.get(k)` (the first value; a Python dict has at most one entry per
key, so first = only). -/
def alGet [DecidableEq κ] (l : List (κ × α)) (k : κ) : Option α :=
  (l.find? (fun p => p.1 = k)).map Prod.snd

/-- Python `str.strip()`: remove ASCII whitespace from both ends. -/
def pyStrip (s : String) : String :=
  String.mk (((s.toList.dropWhile Char.isWhitespace).reverse.dropWhile
    Char.isWhitespace).reverse)

/-- Python `str.rstrip("/")`: remove all trailing slash characters. -/
def rstripSlash (s : String) : String :=
  String.mk ((s.toList.reverse.dropWhile (fun c => c = '/')).reverse)

/-- One step of building a Python dict: `d[k] = v` keeps the original
position of an existing key but replaces its value, and appends otherwise. -/
def dictInsert [DecidableEq κ] (d : List (κ × α)) (k : κ) (v : α) : List (κ × α) :=
  if (alGet d k).isSome then
    d.map (fun p => if p.1 = k then (k, v) else p)
  else
    d ++ [(k, v)]

/-- A Python dict comprehension `\x7bk: v for k, v in ps\x7d`: insertion
order of first occurrence, last value wins. -/
def pyDict (ps : List (String × α)) : List (String × α) :=
  ps.foldl (fun d p => dictInsert d p.1 p.2) []

/-- Werkzeug `MultiDict.items()` (default `multi=False`): each distinct key
once, in order of first occurrence, paired with its first value. -/
def multiItemsAux : List String → List (String × String) → List (String × String)
  | _, [] => []
  | seen, (k, v) :: rest =>
      if k ∈ seen then multiItemsAux seen rest
      else (k, v) :: multiItemsAux (k :: seen) rest

def multiItems (l : List (String × String)) : List (String × String) :=
  multiItemsAux [] l

/-- Does a string start with a URI scheme (`name:` with `name` alphabetic),
as `urllib.parse` detects it? Simplified to alphabetic scheme characters. -/
def hasScheme (s : String) : Bool :=
  match s.toList.findIdx? (fun c => c = ':') with
  | none => false
  | some i => 0 < i ∧ (s.toList.take i).all Char.isAlpha

/-- The `scheme://host` prefix of an absolute URL: everything up to the
first `/` after `scheme://`. -/
def schemeHost (s : String) : String :=
  match s.toList.findIdx? (fun c => c = ':') with
  | none => ""
  | some i =>
      let rest := s.toList.drop (i + 3)
      String.mk (s.toList.take (i + 3) ++ rest.takeWhile (fun c => c ≠ '/'))

/-- The scheme of an absolute URL (text before the first `:`). -/
def urlScheme (s : String) : String :=
  String.mk (s.toList.takeWhile (fun c => c ≠ ':'))

/-- Model of `urllib.parse.urljoin(base, url)` for a base of the shape
`scheme://host/path/` (as built by the proxy: the base always ends in `/`).
Dot-segment normalisation is omitted; no claim depends on the internals of
this function, only on the proxy calling it with particular arguments. -/
def urljoin (base url : String) : String :=
  if hasScheme url then url
  else if url.toList.take 2 = ['/', '/'] then urlScheme base ++ ":" ++ url
  else if url.toList.take 1 = ['/'] then schemeHost base ++ url
  else
    let chopped := (base.toList.reverse.dropWhile (fun c => c ≠ '/')).reverse
    String.mk chopped ++ url

/-! ## HTTP-level data model -/

/-- An incoming Flask request, as the handlers read it: method, query
arguments (`request.args`, possibly with repeated keys), headers
(`request.headers`) and raw body (`request.get_data()`). -/
structure HttpRequest where
  method : String
  args : List (String × String)
  headers : List (String × String)
  body : String

/-- Body of an upstream or Flask response in the embedding. -/
inductive Body where
  | empty : Body
  | raw : String → Body
  | jsonVal : Json → Body

/-- A request issued through the `requests` library. -/
structure UpstreamRequest where
  method : String
  url : String
  params : List (String × String)
  headers : List (String × String)
  body : Body

/-- An upstream HTTP response: status, headers, raw content and, when the
content parses as JSON, the parsed value (`response.json()`). -/
structure UpstreamResponse where
  status : Nat
  headers : List (String × String)
  content : String
  jsonBody : Option Json

/-- Outcome of one `requests` call: a response, or a raised
`requests.RequestException` (connection error, timeout, ...). -/
inductive UpstreamResult where
  | resp : UpstreamResponse → UpstreamResult
  | requestException : String → UpstreamResult

/-- The network oracle standing for the `requests` library. -/
def Net : Type := UpstreamRequest → UpstreamResult

/-- A Flask response as returned to the caller. -/
structure FlaskResponse where
  status : Nat
  headers : List (String × String)
  body : Body

/-- `jsonify(\x7b"error": msg\x7d)`. -/
def jsonError (msg : String) : Body :=
  .jsonVal (.obj [("error", .str msg)])

/-- Is the body a JSON object whose first field is `"error"`? -/
def isJsonErrorBody : Body → Bool
  | .jsonVal (.obj (("error", _) :: _)) => true
  | _ => false

/-- `response.ok` in `requests`: status below 400. -/
def respOk (r : UpstreamResponse) : Bool := r.status < 400

/-! ## The proxy endpoint (`proxy_request`, app.py lines 64-120) -/

/-- `skip_headers` (app.py line 78). -/
def skip_headers : List String :=
  ["host", "content-length", "transfer-encoding", "connection", "keep-alive",
   "authorization"]

/-- `hop_by_hop` (app.py line 97). -/
def hop_by_hop : List String :=
  ["content-encoding", "transfer-encoding", "connection", "keep-alive"]

/-- The single upstream request the proxy builds from an incoming request
and a (non-empty) target, app.py lines 76-93. -/
def proxyUpstreamReq (path : String) (req : HttpRequest) (target : String) :
    UpstreamRequest :=
  { method := req.method
    url := urljoin (rstripSlash target ++ "/") path
    params := (multiItems req.args).filter (fun p => p.1 ≠ "target")
    headers := pyDict (req.headers.filter (fun p => ¬ p.1.toLower ∈ skip_headers))
    body := .raw req.body }

/-- `proxy_request` (app.py lines 64-120).  Returns the trace of upstream
requests issued (empty or a singleton) and the Flask response.  The
`status_code >= 400` branch and the streaming branch both relay the upstream
content with the same status and filtered headers, so they coincide here. -/
def proxy_request (path : String) (req : HttpRequest) (net : Net) :
    List UpstreamRequest × FlaskResponse :=
  if req.method = "OPTIONS" then
    ([], { status := 204, headers := [], body := .empty })
  else
    match alGet req.args "target" with
    | none =>
        ([], { status := 400, headers := [],
               body := jsonError "Missing target URL. Use ?target=https://api.example.com" })
    | some target =>
        -- `if not target_base:` is also taken when the value is the empty string
        if target = "" then
          ([], { status := 400, headers := [],
                 body := jsonError "Missing target URL. Use ?target=https://api.example.com" })
        else
          let ureq := proxyUpstreamReq path req target
          match net ureq with
          | .requestException e =>
              ([ureq], { status := 502, headers := [],
                         body := jsonError ("Proxy request failed: " ++ e) })
          | .resp r =>
              let response_headers :=
                r.headers.filter (fun p => ¬ p.1.toLower ∈ hop_by_hop)
              ([ureq], { status := r.status, headers := response_headers,
                         body := .raw r.content })

/-! ## SSE progress endpoint (`register_progress`, app.py lines 45-61) -/

/-- An event pushed onto a progress queue: a Python dict (the pushers in
`model_registration.py` put dicts, and the `done` lookup requires one). -/
def Event : Type := List (String × Json)

/-- The `done` field, read with `data.get`, is truthy. -/
def eventDone (e : Event) : Bool :=
  pyTruthy ((alGet e "done").getD .null)

/-- One server-sent event: `f"data: \x7bjson.dumps(data)\x7d\n\n"`. -/
def sseLine (e : Event) : String :=
  "data: " ++ dumps (.obj e) ++ "\n\n"

/-- The `generate()` loop of `register_progress` (app.py lines 48-56),
applied to the sequence of events that arrive on the queue of the connection:
events are taken in FIFO order; a done-marker stops the loop without being
emitted; an exhausted list means the loop is still blocked in `q.get()`
having emitted everything so far. -/
def generate : List Event → List String
  | [] => []
  | e :: rest => if eventDone e then [] else sseLine e :: generate rest

/-! ## The progress_queues dict as a transition system

`progress_queues` (app.py line 32) is a process-global dict from request id
to `queue.Queue`.  Each SSE connection allocates a fresh queue and stores it
under its request id (lines 49-50); a pusher holding the id does
`progress_queues[request_id].put(event)`; when the generator of a connection
terminates (done-marker or closed early) its `finally` block deletes the
entry of the id if one is present (lines 57-59).  Queue handles are natural
numbers allocated in order; a connection is identified by the handle of the
queue it created together with its request id. -/

structure ServerState where
  /-- `progress_queues`: request id → handle of the queue stored there. -/
  pmap : List (String × Nat)
  /-- Contents of every allocated queue, by handle. -/
  queues : List (Nat × List Event)
  /-- Active generators: (owned queue handle, request id). -/
  conns : List (Nat × String)
  /-- Next fresh queue handle. -/
  nextQ : Nat

/-- Python `del d[k]` (the dict holds at most one entry per key). -/
def dictRemove [DecidableEq κ] (d : List (κ × α)) (k : κ) : List (κ × α) :=
  d.filter (fun p => p.1 ≠ k)

/-- Append an event to the queue with the given handle. -/
def enqueue (qs : List (Nat × List Event)) (h : Nat) (e : Event) :
    List (Nat × List Event) :=
  qs.map (fun q => if q.1 = h then (q.1, q.2 ++ [e]) else q)

/-- Observable actions on the progress-queue state. -/
inductive Action where
  | openConn : String → Action
  | push : String → Event → Action
  | closeConn : String → Nat → Action

/-- The initial state: `progress_queues = \x7b\x7d`. -/
def initState : ServerState :=
  { pmap := [], queues := [], conns := [], nextQ := 0 }

/-- One step.  `openConn id`: the generator of a new SSE connection runs
lines 49-50 (fresh queue, `progress_queues[request_id] = q`).  `push id e`:
a pusher appends to the queue currently registered for `id` (a no-op here
when no entry exists).  `closeConn id h`: the generator owning queue `h`
terminates and its `finally` block deletes the entry of `id` when present. -/
def step (s : ServerState) : Action → ServerState
  | .openConn id =>
      { pmap := dictInsert s.pmap id s.nextQ
        queues := s.queues ++ [(s.nextQ, [])]
        conns := s.conns ++ [(s.nextQ, id)]
        nextQ := s.nextQ + 1 }
  | .push id e =>
      match alGet s.pmap id with
      | some h => { s with queues := enqueue s.queues h e }
      | none => s
  | .closeConn id h =>
      if (h, id) ∈ s.conns then
        { s with pmap := dictRemove s.pmap id
                 conns := s.conns.filter (fun c => c ≠ (h, id)) }
      else s

/-- Run a trace of actions from the initial state. -/
def run (tr : List Action) : ServerState :=
  tr.foldl step initState

/-! ## Configuration and the CRUD endpoints (app.py lines 24-26, 135-309) -/

/-- The environment-derived configuration (app.py lines 24-26). -/
structure Config where
  domain : String
  apiKey : String
  projectId : String

/-- The fixed headers the CRUD endpoints send upstream. -/
def dominoHeaders (cfg : Config) : List (String × String) :=
  [("X-Domino-Api-Key", cfg.apiKey), ("accept", "application/json")]

/-- The upstream request of `get_policies` (app.py lines 139-146). -/
def policiesReq (cfg : Config) : UpstreamRequest :=
  { method := "GET"
    url := "https://" ++ cfg.domain ++ "/api/governance/v1/policy-overviews"
    params := []
    headers := dominoHeaders cfg
    body := .empty }

/-- Shared shape of `get_policies` and `get_bundles`: GET the url, relay the
JSON on `response.ok`, relay the status with a JSON error otherwise, 500 on
`RequestException`; `response.json()` failing on an ok response falls into
the generic `except Exception` branch (status 500). -/
def relayJson (ureq : UpstreamRequest) (net : Net) (errPrefix : String)
    (exnPrefix : String) : List UpstreamRequest × FlaskResponse :=
  match net ureq with
  | .requestException e =>
      ([ureq], { status := 500, headers := [],
                 body := jsonError (exnPrefix ++ e) })
  | .resp r =>
      if respOk r then
        match r.jsonBody with
        | some j => ([ureq], { status := 200, headers := [], body := .jsonVal j })
        | none =>
            ([ureq], { status := 500, headers := [],
                       body := jsonError "Unexpected error: invalid JSON" })
      else
        ([ureq], { status := r.status, headers := [],
                   body := jsonError (errPrefix ++ toString r.status) })

/-- `get_policies` (app.py lines 135-161). -/
def get_policies (cfg : Config) (net : Net) : List UpstreamRequest × FlaskResponse :=
  relayJson (policiesReq cfg) net "Failed to fetch policies: " "Error fetching policies: "

/-- The upstream request of `get_bundles` (app.py lines 168-175). -/
def bundlesReq (cfg : Config) : UpstreamRequest :=
  { method := "GET"
    url := "https://" ++ cfg.domain ++ "/api/governance/v1/bundles"
    params := []
    headers := dominoHeaders cfg
    body := .empty }

/-- `get_bundles` (app.py lines 164-190). -/
def get_bundles (cfg : Config) (net : Net) : List UpstreamRequest × FlaskResponse :=
  relayJson (bundlesReq cfg) net "Failed to fetch bundles: " "Error fetching bundles: "

/-- The payload `update_stage_assignee` builds (app.py lines 197-218):
`\x7b"assignee": \x7b"id": ..., "name": ...\x7d\x7d` when both fields are
truthy, else `\x7b"assignee": null\x7d`. -/
def assigneePayload (data : List (String × Json)) : Json :=
  let aid := (alGet data "assigneeId").getD .null
  let aname := (alGet data "assigneeName").getD .null
  if pyTruthy aid ∧ pyTruthy aname then
    .obj [("assignee", .obj [("id", aid), ("name", aname)])]
  else
    .obj [("assignee", .null)]

/-- The upstream request of `update_stage_assignee` (app.py lines 202-223):
a PATCH (not a PUT) to `.../stages/<stage_id>` (not `.../assignee`). -/
def assigneeReq (cfg : Config) (bundle_id stage_id : String)
    (data : List (String × Json)) : UpstreamRequest :=
  { method := "PATCH"
    url := "https://" ++ cfg.domain ++ "/api/governance/v1/bundles/" ++
      bundle_id ++ "/stages/" ++ stage_id
    params := []
    headers := dominoHeaders cfg ++ [("Content-Type", "application/json")]
    body := .jsonVal (assigneePayload data) }

/-- `update_stage_assignee` (app.py lines 193-241).  `data` is the parsed
JSON body of the incoming PUT (`request.get_json() or \x7b\x7d`). -/
def update_stage_assignee (cfg : Config) (bundle_id stage_id : String)
    (data : List (String × Json)) (net : Net) :
    List UpstreamRequest × FlaskResponse :=
  let ureq := assigneeReq cfg bundle_id stage_id data
  match net ureq with
  | .requestException e =>
      ([ureq], { status := 500, headers := [],
                 body := jsonError ("Error updating assignee: " ++ e) })
  | .resp r =>
      if respOk r then
        -- `response.json() if response.content else ...`: emptiness of the
        -- content is tested before parsing
        if r.content = "" then
          ([ureq], { status := 200, headers := [],
                     body := .jsonVal (.obj [("success", .bool true)]) })
        else
          match r.jsonBody with
          | some j => ([ureq], { status := 200, headers := [], body := .jsonVal j })
          | none =>
              ([ureq], { status := 500, headers := [],
                         body := jsonError "Unexpected error: invalid JSON" })
      else
        ([ureq], { status := r.status, headers := [],
                   body := .jsonVal (.obj
                     [("error", .str ("Failed to update assignee: " ++ toString r.status)),
                      ("details", .str r.content)]) })

/-- The `fullName` value `get_users` computes for one collaborator (app.py
line 296): firstName and lastName, each read with `person.get` defaulting to
the empty string, joined by a space in an f-string and stripped, with `or`
falling back to the userName value when the stripped join is empty. -/
def fullNameOf (person : List (String × Json)) : Json :=
  let joined := pyStrip
    (pyToStr ((alGet person "firstName").getD (.str "")) ++ " " ++
     pyToStr ((alGet person "lastName").getD (.str "")))
  if joined = "" then (alGet person "userName").getD .null else .str joined

/-- The user object `get_users` builds for one collaborator dict (app.py
lines 293-297). -/
def personToUser (person : List (String × Json)) : Json :=
  .obj [("id", (alGet person "id").getD .null),
        ("username", (alGet person "userName").getD .null),
        ("fullName", fullNameOf person)]

/-- The upstream request of `get_users` (app.py lines 260-275). -/
def usersReq (cfg : Config) : UpstreamRequest :=
  { method := "GET"
    url := "https://" ++ cfg.domain ++ "/v4/projects/" ++ cfg.projectId ++
      "/collaborators"
    params := [("getUsers", "True")]
    headers := dominoHeaders cfg
    body := .empty }

/-- The `for person in collaborators` loop of `get_users` (app.py lines
291-298): build one user object per collaborator dict, failing if an element
is not a dict (`person.get` would raise). -/
def usersFromJson : List Json → Option (List Json)
  | [] => some []
  | .obj fs :: rest => (usersFromJson rest).map (fun us => personToUser fs :: us)
  | _ => none

/-- `get_users` (app.py lines 250-309).  The upstream JSON must be a list of
dicts (`for person in collaborators` with `person.get(...)`); anything else
raises and lands in the generic `except Exception` branch (status 500). -/
def get_users (cfg : Config) (net : Net) : List UpstreamRequest × FlaskResponse :=
  if cfg.projectId = "" then
    ([], { status := 500, headers := [], body := jsonError "Project ID not configured" })
  else
    let ureq := usersReq cfg
    match net ureq with
    | .requestException e =>
        ([ureq], { status := 500, headers := [],
                   body := jsonError ("Error fetching project collaborators: " ++ e) })
    | .resp r =>
        if respOk r then
          match r.jsonBody with
          | some (.arr collaborators) =>
              match usersFromJson collaborators with
              | some users =>
                  ([ureq], { status := 200, headers := [],
                             body := .jsonVal (.obj [("users", .arr users)]) })
              | none =>
                  ([ureq], { status := 500, headers := [],
                             body := jsonError "Unexpected error: not a list of dicts" })
          | _ =>
              ([ureq], { status := 500, headers := [],
                         body := jsonError "Unexpected error: invalid JSON" })
        else
          ([ureq], { status := r.status, headers := [],
                     body := jsonError ("Failed to fetch project collaborators: " ++ toString r.status) })

/-- The host component of an `https://...` URL: the text between the
`https://` prefix and the next `/`. -/
def hostOf (url : String) : String :=
  String.mk ((url.toList.drop 8).takeWhile (fun c => c ≠ '/'))

/-! ## Concrete inputs used by counterexamples and witnesses -/

/-- An oracle that always answers 200 with an empty body. -/
def netOk200 : Net := fun _ =>
  .resp { status := 200, headers := [], content := "", jsonBody := none }

/-- An oracle whose every call raises a `RequestException`. -/
def netErr : Net := fun _ => .requestException "boom"

/-- An oracle answering 200 with the given JSON body. -/
def netJson (j : Json) : Net := fun _ =>
  .resp { status := 200, headers := [], content := "x", jsonBody := some j }

/-- A proxy request carrying a well-formed target and one other parameter. -/
def tgtReq : HttpRequest :=
  { method := "GET"
    args := [("target", "https://api.example.com"), ("b", "2")]
    headers := [("Host", "me"), ("X-Foo", "1"), ("Authorization", "secret")]
    body := "hello" }

/-- A proxy request with no `target` parameter. -/
def noTargetReq : HttpRequest :=
  { method := "GET", args := [("a", "1")], headers := [], body := "" }

/-- An upstream response with one hop-by-hop and one ordinary header. -/
def gzipResp : UpstreamResponse :=
  { status := 200
    headers := [("Content-Encoding", "gzip"), ("X-Bar", "2")]
    content := "ok"
    jsonBody := none }

/-- An oracle that always answers with `gzipResp`. -/
def netGzip : Net := fun _ => .resp gzipResp

/-- A concrete configuration. -/
def cfg0 : Config :=
  { domain := "gov.example.com", apiKey := "key", projectId := "proj1" }

/-- An oracle answering with a plain non-ok status. -/
def net503 : Net := fun _ =>
  .resp { status := 503, headers := [], content := "unavailable", jsonBody := none }

/-- Is an optional JSON value an empty-or-missing name field, in the words
of claim C10 ("empty or missing")? -/
def isEmptyName : Option Json → Bool
  | none => true
  | some (.str s) => s = ""
  | some _ => false

/-- Modelled from the wording of the claim, for comparison with the
code-derived `fullNameOf`: fall back to `userName` only when both name
fields are empty or missing; otherwise use the space-joined,
whitespace-stripped names. -/
def claimFullName (person : List (String × Json)) : Json :=
  if isEmptyName (alGet person "firstName") && isEmptyName (alGet person "lastName")
  then (alGet person "userName").getD .null
  else .str (pyStrip
    (pyToStr ((alGet person "firstName").getD (.str "")) ++ " " ++
     pyToStr ((alGet person "lastName").getD (.str ""))))

/-- A collaborator whose firstName is whitespace-only: neither empty nor
missing, yet the code falls back to userName. -/
def wsPerson : List (String × Json) :=
  [("id", .str "1"), ("userName", .str "bob"), ("firstName", .str " ")]

/-- The invariant the progress-queue state maintains. -/
structure Inv (s : ServerState) : Prop where
  pmapNodup : (s.pmap.map Prod.fst).Nodup
  connsNodup : (s.conns.map Prod.fst).Nodup
  connsLt : ∀ c ∈ s.conns, c.1 < s.nextQ
  mapped_conn : ∀ p ∈ s.pmap, (p.2, p.1) ∈ s.conns
  mapped_queue : ∀ p ∈ s.pmap, (alGet s.queues p.2).isSome

/-! ## Association-list lemmas -/

theorem alGet_nil [DecidableEq κ] (k : κ) : alGet ([] : List (κ × α)) k = none := rfl

theorem alGet_cons [DecidableEq κ] (a : κ × α) (l : List (κ × α)) (k : κ) :
    alGet (a :: l) k = if a.1 = k then some a.2 else alGet l k := by
  by_cases h : a.1 = k <;> simp [alGet, List.find?_cons, h]

theorem alGet_eq_none_iff [DecidableEq κ] {l : List (κ × α)} {k : κ} :
    alGet l k = none ↔ k ∉ l.map Prod.fst := by
  induction l with
  | nil => simp [alGet_nil]
  | cons a l ih =>
      rw [alGet_cons]
      by_cases h : a.1 = k
      · simp [h]
      · simp only [if_neg h, List.map_cons, List.mem_cons, ih]
        constructor
        · intro hn hor
          rcases hor with h1 | h2
          · exact h h1.symm
          · exact hn h2
        · intro hn h2
          exact hn (Or.inr h2)

theorem alGet_append_single [DecidableEq κ] {d : List (κ × α)} {k : κ}
    (h : alGet d k = none) (v : α) : alGet (d ++ [(k, v)]) k = some v := by
  induction d with
  | nil => simp [alGet_cons]
  | cons a d ih =>
      rw [alGet_cons] at h
      by_cases ha : a.1 = k
      · simp [ha] at h
      · simp [List.cons_append, alGet_cons, ha]
        exact ih (by simpa [ha] using h)

theorem alGet_map_replace [DecidableEq κ] {d : List (κ × α)} {k : κ}
    (h : (alGet d k).isSome) (v : α) :
    alGet (d.map (fun p => if p.1 = k then (k, v) else p)) k = some v := by
  induction d with
  | nil => simp [alGet_nil] at h
  | cons a d ih =>
      by_cases ha : a.1 = k
      · simp [alGet_cons, ha]
      · rw [alGet_cons, if_neg ha] at h
        simp [alGet_cons, ha]
        exact ih h

theorem alGet_dictInsert_self [DecidableEq κ] (d : List (κ × α)) (k : κ) (v : α) :
    alGet (dictInsert d k v) k = some v := by
  rw [dictInsert]
  by_cases h : (alGet d k).isSome
  · rw [if_pos h]; exact alGet_map_replace h v
  · rw [if_neg h]
    exact alGet_append_single (Option.not_isSome_iff_eq_none.mp h) v

theorem alGet_dictRemove_self [DecidableEq κ] (d : List (κ × α)) (k : κ) :
    alGet (dictRemove d k) k = none := by
  rw [alGet_eq_none_iff]
  intro hmem
  obtain ⟨p, hp, hpk⟩ := List.mem_map.mp hmem
  have := (List.mem_filter.mp hp).2
  simp [hpk] at this

theorem keys_dictInsert [DecidableEq κ] (d : List (κ × α)) (k : κ) (v : α) :
    (dictInsert d k v).map Prod.fst =
      if (alGet d k).isSome then d.map Prod.fst else d.map Prod.fst ++ [k] := by
  rw [dictInsert]
  by_cases h : (alGet d k).isSome
  · rw [if_pos h, if_pos h, List.map_map]
    apply List.map_congr_left
    intro p _
    by_cases hp : p.1 = k <;> simp [hp, Function.comp]
  · rw [if_neg h, if_neg h]
    simp

theorem keys_dictInsert_nodup [DecidableEq κ] {d : List (κ × α)} {k : κ} (v : α)
    (h : (d.map Prod.fst).Nodup) : ((dictInsert d k v).map Prod.fst).Nodup := by
  rw [keys_dictInsert]
  by_cases hk : (alGet d k).isSome
  · simpa [hk] using h
  · rw [if_neg hk]
    have hnot : k ∉ d.map Prod.fst := alGet_eq_none_iff.mp
      (Option.not_isSome_iff_eq_none.mp hk)
    simp [List.nodup_append, h, hnot]

theorem keys_dictRemove_nodup [DecidableEq κ] {d : List (κ × α)} (k : κ)
    (h : (d.map Prod.fst).Nodup) : ((dictRemove d k).map Prod.fst).Nodup :=
  h.sublist ((List.filter_sublist d).map Prod.fst)

theorem dictInsert_of_not_mem [DecidableEq κ] {d : List (κ × α)} {k : κ}
    (h : k ∉ d.map Prod.fst) (v : α) : dictInsert d k v = d ++ [(k, v)] := by
  rw [dictInsert, if_neg]
  simp [alGet_eq_none_iff.mpr h]

theorem foldl_dictInsert_of_nodup (l d : List (String × α))
    (hl : (l.map Prod.fst).Nodup)
    (hdisj : ∀ k ∈ l.map Prod.fst, k ∉ d.map Prod.fst) :
    l.foldl (fun d p => dictInsert d p.1 p.2) d = d ++ l := by
  induction l generalizing d with
  | nil => simp
  | cons a l ih =>
      rw [List.map_cons] at hl
      have hnc := List.nodup_cons.mp hl
      have hka : a.1 ∉ d.map Prod.fst := hdisj a.1 (by simp)
      have hstep := ih (d ++ [(a.1, a.2)]) hnc.2 (by
        intro k hk
        rw [List.map_append, List.mem_append]
        rintro (hd | hs)
        · exact hdisj k (by simp [hk]) hd
        · simp at hs
          exact hnc.1 (hs ▸ hk))
      rw [List.foldl_cons, dictInsert_of_not_mem hka a.2, hstep]
      simp

/-- A Python dict comprehension over pairs with pairwise-distinct keys is
just the list itself. -/
theorem pyDict_eq_self {l : List (String × α)} (h : (l.map Prod.fst).Nodup) :
    pyDict l = l := by
  simpa using foldl_dictInsert_of_nodup l [] h (by simp)

theorem takeWhile_append_of_all {p : α → Bool} {l₁ : List α} (l₂ : List α)
    (h : ∀ a ∈ l₁, p a) : (l₁ ++ l₂).takeWhile p = l₁ ++ l₂.takeWhile p := by
  induction l₁ with
  | nil => simp
  | cons a l ih => simp_all [List.takeWhile_cons]

/-- The host of `https://<domain><rest>` is `<domain>` whenever the domain
contains no slash and the rest starts with one. -/
theorem hostOf_https (d r : String) (hd : '/' ∉ d.toList)
    (hr : r.toList.take 1 = ['/']) : hostOf ("https://" ++ d ++ r) = d := by
  have hdata : ("https://" ++ d ++ r).toList = "https://".toList ++ (d.toList ++ r.toList) := by
    simp [String.toList, String.data_append]
  rw [hostOf, hdata, show (8 : Nat) = ("https://").toList.length from rfl,
    List.drop_left]
  have hall : ∀ a ∈ d.toList, decide (a ≠ '/') = true := fun a ha => by
    simp only [ne_eq, decide_eq_true_eq]
    exact fun hav => hd (hav ▸ ha)
  rw [takeWhile_append_of_all r.toList hall]
  cases hrl : r.toList with
  | nil => rw [hrl] at hr; simp at hr
  | cons c cs =>
      rw [hrl] at hr
      have hc : c = '/' := by simpa using hr
      subst hc
      simp [List.takeWhile_cons]

theorem alGet_mem [DecidableEq κ] {l : List (κ × α)} {k : κ} {v : α}
    (h : alGet l k = some v) : (k, v) ∈ l := by
  induction l with
  | nil => simp [alGet_nil] at h
  | cons a l ih =>
      obtain ⟨a1, a2⟩ := a
      rw [alGet_cons] at h
      by_cases ha : a1 = k
      · rw [if_pos ha] at h
        rw [Option.some.injEq] at h
        subst ha
        subst h
        exact List.mem_cons_self _ _
      · rw [if_neg ha] at h
        exact List.mem_cons_of_mem _ (ih h)

theorem alGet_append [DecidableEq κ] (d1 d2 : List (κ × α)) (k : κ) :
    alGet (d1 ++ d2) k =
      match alGet d1 k with
      | some v => some v
      | none => alGet d2 k := by
  induction d1 with
  | nil => simp [alGet_nil]
  | cons a d ih =>
      by_cases ha : a.1 = k <;> simp [alGet_cons, ha, ih]

theorem mem_dictInsert [DecidableEq κ] {d : List (κ × α)} {k : κ} {v : α}
    {p : κ × α} (h : p ∈ dictInsert d k v) :
    p = (k, v) ∨ (p ∈ d ∧ p.1 ≠ k) := by
  rw [dictInsert] at h
  by_cases hs : (alGet d k).isSome
  · rw [if_pos hs] at h
    obtain ⟨q, hq, hfq⟩ := List.mem_map.mp h
    by_cases hqk : q.1 = k
    · left; rw [← hfq, if_pos hqk]
    · right; rw [← hfq, if_neg hqk]; exact ⟨hq, hqk⟩
  · rw [if_neg hs] at h
    rcases List.mem_append.mp h with hd | hone
    · right
      refine ⟨hd, fun hpk => ?_⟩
      have : alGet d k = none := Option.not_isSome_iff_eq_none.mp hs
      exact absurd (List.mem_map.mpr ⟨p, hd, hpk⟩) (alGet_eq_none_iff.mp this)
    · left; simpa using hone

theorem mem_dictRemove [DecidableEq κ] {d : List (κ × α)} {k : κ} {p : κ × α}
    (h : p ∈ dictRemove d k) : p ∈ d ∧ p.1 ≠ k := by
  have := List.mem_filter.mp h
  exact ⟨this.1, by simpa using this.2⟩

theorem alGet_enqueue_self (qs : List (Nat × List Event)) (h : Nat) (e : Event) :
    alGet (enqueue qs h e) h = (alGet qs h).map (fun q => q ++ [e]) := by
  induction qs with
  | nil => rfl
  | cons q qs ih =>
      by_cases hq : q.1 = h
      · simp [enqueue, alGet_cons, hq]
      · simpa [enqueue, alGet_cons, hq] using ih

theorem alGet_enqueue_other (qs : List (Nat × List Event)) (h h2 : Nat)
    (e : Event) (hne : h2 ≠ h) : alGet (enqueue qs h e) h2 = alGet qs h2 := by
  induction qs with
  | nil => rfl
  | cons q qs ih =>
      obtain ⟨q1, ql⟩ := q
      simp only [enqueue, List.map_cons] at *
      by_cases hq : q1 = h
      · have h1 : ¬ q1 = h2 := fun hh => hne (hh ▸ hq)
        rw [if_pos hq]
        rw [alGet_cons, alGet_cons]
        simp only [if_neg h1]
        exact ih
      · rw [if_neg hq, alGet_cons, alGet_cons]
        by_cases hq2 : q1 = h2
        · simp only [if_pos hq2]
        · simp only [if_neg hq2]
          exact ih

theorem inv_init : Inv initState := by
  constructor <;> simp [initState]

theorem inv_step {s : ServerState} (hs : Inv s) (a : Action) : Inv (step s a) := by
  cases a with
  | openConn id =>
      refine ⟨keys_dictInsert_nodup _ hs.pmapNodup, ?_, ?_, ?_, ?_⟩
      · rw [step]
        simp only [List.map_append]
        rw [List.nodup_append]
        refine ⟨hs.connsNodup, by simp, ?_⟩
        intro x hx
        simp only [List.map_cons, List.map_nil, List.mem_singleton]
        obtain ⟨c, hc, hcx⟩ := List.mem_map.mp hx
        intro hxn
        have := hs.connsLt c hc
        omega
      · intro c hc
        rw [step] at hc ⊢
        simp only [List.mem_append, List.mem_singleton] at hc
        rcases hc with hc | hc
        · have := hs.connsLt c hc; simp; omega
        · simp [hc]
      · intro p hp
        rw [step] at hp ⊢
        rcases mem_dictInsert hp with hp | ⟨hp, _⟩
        · simp [hp]
        · exact List.mem_append_left _ (hs.mapped_conn p hp)
      · intro p hp
        rw [step] at hp ⊢
        simp only
        rw [alGet_append]
        rcases mem_dictInsert hp with hp | ⟨hp, _⟩
        · cases hq : alGet s.queues p.2 <;> simp [hp, alGet_cons, hq]
        · have := hs.mapped_queue p hp
          obtain ⟨q, hq⟩ := Option.isSome_iff_exists.mp this
          simp [hq]
  | push id e =>
      cases hm : alGet s.pmap id with
      | none => simpa [step, hm] using hs
      | some h =>
          have hstep : step s (.push id e) = { s with queues := enqueue s.queues h e } := by
            simp [step, hm]
          rw [hstep]
          refine ⟨hs.pmapNodup, hs.connsNodup, hs.connsLt, hs.mapped_conn, ?_⟩
          intro p hp
          by_cases hph : p.2 = h
          · rw [hph, alGet_enqueue_self]
            have hsq := hs.mapped_queue p hp
            rw [hph] at hsq
            obtain ⟨q, hqq⟩ := Option.isSome_iff_exists.mp hsq
            simp [hqq]
          · rw [alGet_enqueue_other _ _ _ _ hph]
            exact hs.mapped_queue p hp
  | closeConn id h =>
      rw [step]
      by_cases hc : (h, id) ∈ s.conns
      · rw [if_pos hc]
        refine ⟨keys_dictRemove_nodup _ hs.pmapNodup, ?_, ?_, ?_, ?_⟩
        · exact hs.connsNodup.sublist ((List.filter_sublist _).map Prod.fst)
        · intro c hcm
          exact hs.connsLt c (List.mem_of_mem_filter hcm)
        · intro p hp
          obtain ⟨hpd, hpk⟩ := mem_dictRemove hp
          refine List.mem_filter.mpr ⟨hs.mapped_conn p hpd, ?_⟩
          simp only [ne_eq, decide_eq_true_eq]
          intro heq
          exact hpk (congrArg Prod.snd heq)
        · intro p hp
          exact hs.mapped_queue p (mem_dictRemove hp).1
      · rw [if_neg hc]
        exact hs

theorem inv_foldl (tr : List Action) (s : ServerState) (hs : Inv s) :
    Inv (tr.foldl step s) := by
  induction tr generalizing s with
  | nil => exact hs
  | cons a tr ih => exact ih (step s a) (inv_step hs a)

theorem inv_run (tr : List Action) : Inv (run tr) :=
  inv_foldl tr initState inv_init

/-- C4: on an SSE connection to `/register-progress/<request_id>`, the
non-done events in the queue are emitted in FIFO order, each as a
`data: <json.dumps(event)>` line followed by a blank line; the stream stops
at the first event whose `done` field is truthy, and that done-marker is not
emitted. -/
theorem c4_sse_stream (evs : List Event) :
    generate evs = (evs.takeWhile (fun e => ! eventDone e)).map sseLine := by
  induction evs with
  | nil => rfl
  | cons e rest ih =>
      by_cases h : eventDone e
      · simp [generate, List.takeWhile_cons, h]
      · simp [generate, List.takeWhile_cons, h, ih]

/-- C6: for every request identifier the `progress_queues` mapping is
single-valued, and when the identifier is mapped, a pushed event lands in
exactly that one queue (all others unchanged), a queue owned by exactly one
active connection — even after several SSE connections were opened under
the same identifier. -/
theorem c6_single_queue_single_delivery (tr : List Action) (id : String)
    (e : Event) (h : Nat) (hmap : alGet (run tr).pmap id = some h) :
    ((run tr).pmap.map Prod.fst).Nodup ∧
    ((run tr).conns.map Prod.fst).count h = 1 ∧
    alGet (step (run tr) (.push id e)).queues h =
      (alGet (run tr).queues h).map (fun q => q ++ [e]) ∧
    ∀ h2, h2 ≠ h → alGet (step (run tr) (.push id e)).queues h2 =
      alGet (run tr).queues h2 := by
  have hinv := inv_run tr
  have hmem : ((h : Nat), id) ∈ (run tr).conns := hinv.mapped_conn (id, h) (alGet_mem hmap)
  refine ⟨hinv.pmapNodup, ?_, ?_, ?_⟩
  · exact List.count_eq_one_of_mem hinv.connsNodup
      (List.mem_map.mpr ⟨(h, id), hmem, rfl⟩)
  · rw [step, hmap]
    exact alGet_enqueue_self _ _ _
  · intro h2 hne
    rw [step, hmap]
    exact alGet_enqueue_other _ _ _ _ hne

theorem c6_witness :
    (((run [Action.openConn "r"]).pmap.map Prod.fst).Nodup ∧
     ((run [Action.openConn "r"]).conns.map Prod.fst).count 0 = 1 ∧
     alGet (step (run [Action.openConn "r"])
         (.push "r" [("msg", Json.str "hi")])).queues 0 =
       (alGet (run [Action.openConn "r"]).queues 0).map
         (fun q => q ++ [[("msg", Json.str "hi")]]) ∧
     ∀ h2, h2 ≠ 0 → alGet (step (run [Action.openConn "r"])
         (.push "r" [("msg", Json.str "hi")])).queues h2 =
       alGet (run [Action.openConn "r"]).queues h2) :=
  c6_single_queue_single_delivery [Action.openConn "r"] "r"
    [("msg", Json.str "hi")] 0 (by decide)

/-- C7: the `progress_queues` entry for a request identifier is created when
its SSE connection starts (lines 49-50) and deleted when a generator serving
that identifier terminates — done-marker or early close (the `finally`
block) — so right after a stream ends the identifier is no longer a key. -/
theorem c7_entry_lifecycle (tr : List Action) (id : String) (h : Nat)
    (hconn : (h, id) ∈ (run tr).conns) :
    alGet (step (run tr) (.openConn id)).pmap id = some (run tr).nextQ ∧
    alGet (step (run tr) (.closeConn id h)).pmap id = none := by
  constructor
  · rw [step]
    exact alGet_dictInsert_self _ _ _
  · rw [step, if_pos hconn]
    exact alGet_dictRemove_self _ _

theorem c7_witness :
    (alGet (step (run [Action.openConn "r"]) (.openConn "r")).pmap "r" =
       some (run [Action.openConn "r"]).nextQ ∧
     alGet (step (run [Action.openConn "r"]) (.closeConn "r" 0)).pmap "r" =
       none) :=
  c7_entry_lifecycle [Action.openConn "r"] "r" 0 (by decide)

/-- C1 as stated is false: a request that carries `target` with the empty
string as value takes the `if not target_base` branch (app.py line 73) and
issues no upstream request at all. -/
theorem c1_counterexample :
    ¬ ((proxy_request "v1/x"
        { method := "GET", args := [("target", "")], headers := [], body := "" }
        netOk200).1.length = 1) := by decide

/-- C1 (amended): for every request to `/proxy/<path>` whose method is not
OPTIONS and that carries a non-empty `target` query parameter, the handler
issues exactly one upstream request whose method is the incoming method,
whose URL is `urljoin` of the target (trailing slashes stripped, one `/`
appended) with the path, whose body is the incoming body, and whose query
parameters are the incoming parameters keeping only the first value of each name,
with `target` removed. -/
theorem c1_amended_forwarding (path : String) (req : HttpRequest) (net : Net)
    (t : String) (hm : req.method ≠ "OPTIONS")
    (ht : alGet req.args "target" = some t) (hne : t ≠ "") :
    (proxy_request path req net).1.length = 1 ∧
    ∀ u ∈ (proxy_request path req net).1,
      u.method = req.method ∧
      u.url = urljoin (rstripSlash t ++ "/") path ∧
      u.body = .raw req.body ∧
      u.params = (multiItems req.args).filter (fun p => p.1 ≠ "target") := by
  simp only [proxy_request, if_neg hm, ht, if_neg hne]
  cases hnet : net (proxyUpstreamReq path req t) with
  | requestException e =>
      refine ⟨rfl, ?_⟩
      intro u hu
      rw [List.mem_singleton] at hu
      subst hu
      exact ⟨rfl, rfl, rfl, rfl⟩
  | resp r =>
      refine ⟨rfl, ?_⟩
      intro u hu
      rw [List.mem_singleton] at hu
      subst hu
      exact ⟨rfl, rfl, rfl, rfl⟩

theorem c1_amended_witness :
    (proxy_request "v1/x" tgtReq netOk200).1.length = 1 ∧
    ∀ u ∈ (proxy_request "v1/x" tgtReq netOk200).1,
      u.method = tgtReq.method ∧
      u.url = urljoin (rstripSlash "https://api.example.com" ++ "/") "v1/x" ∧
      u.body = .raw tgtReq.body ∧
      u.params = (multiItems tgtReq.args).filter (fun p => p.1 ≠ "target") :=
  c1_amended_forwarding "v1/x" tgtReq netOk200 "https://api.example.com"
    (by decide) (by decide) (by decide)

/-- C2: on a proxied request, the headers sent upstream are exactly the
incoming headers minus those whose lower-cased name is in `skip_headers`,
and the headers returned to the caller are exactly the upstream response
headers minus those whose lower-cased name is in `hop_by_hop`.  The
hypothesis that incoming header names are pairwise distinct always holds
under WSGI, which stores one environ entry per header name. -/
theorem c2_header_filtering (path : String) (req : HttpRequest) (net : Net)
    (t : String) (r : UpstreamResponse) (hm : req.method ≠ "OPTIONS")
    (ht : alGet req.args "target" = some t) (hne : t ≠ "")
    (hnodup : (req.headers.map Prod.fst).Nodup)
    (hnet : net (proxyUpstreamReq path req t) = .resp r) :
    (∀ u ∈ (proxy_request path req net).1,
        u.headers = req.headers.filter (fun p => ¬ p.1.toLower ∈ skip_headers)) ∧
    (proxy_request path req net).2.headers =
      r.headers.filter (fun p => ¬ p.1.toLower ∈ hop_by_hop) := by
  have hfh : pyDict (req.headers.filter (fun p => ¬ p.1.toLower ∈ skip_headers)) =
      req.headers.filter (fun p => ¬ p.1.toLower ∈ skip_headers) :=
    pyDict_eq_self (hnodup.sublist ((List.filter_sublist _).map Prod.fst))
  simp only [proxy_request, if_neg hm, ht, if_neg hne, hnet]
  refine ⟨?_, trivial⟩
  intro u hu
  rw [List.mem_singleton] at hu
  subst hu
  exact hfh

theorem c2_witness :
    (∀ u ∈ (proxy_request "p" tgtReq netGzip).1,
        u.headers = tgtReq.headers.filter (fun p => ¬ p.1.toLower ∈ skip_headers)) ∧
    (proxy_request "p" tgtReq netGzip).2.headers =
      gzipResp.headers.filter (fun p => ¬ p.1.toLower ∈ hop_by_hop) :=
  c2_header_filtering "p" tgtReq netGzip "https://api.example.com" gzipResp
    (by decide) (by decide) (by decide) (by decide) rfl

/-- C3: a proxy call makes at most one upstream attempt; with no `target`
parameter it returns 400 with a JSON error and no upstream request; when the
single attempt raises a network error it returns 502 with a JSON error,
having attempted exactly once (no retry). -/
theorem c3_no_target_and_failure (path : String) (req : HttpRequest) (net : Net) :
    (proxy_request path req net).1.length ≤ 1 ∧
    (req.method ≠ "OPTIONS" → alGet req.args "target" = none →
      (proxy_request path req net).1 = [] ∧
      (proxy_request path req net).2.status = 400 ∧
      isJsonErrorBody (proxy_request path req net).2.body = true) ∧
    (∀ t e, req.method ≠ "OPTIONS" → alGet req.args "target" = some t → t ≠ "" →
      net (proxyUpstreamReq path req t) = .requestException e →
      (proxy_request path req net).1.length = 1 ∧
      (proxy_request path req net).2.status = 502 ∧
      isJsonErrorBody (proxy_request path req net).2.body = true) := by
  refine ⟨?_, ?_, ?_⟩
  · rw [proxy_request]
    by_cases hm : req.method = "OPTIONS"
    · simp [hm]
    · rw [if_neg hm]
      cases halt : alGet req.args "target" with
      | none => simp
      | some t =>
          by_cases hne : t = ""
          · simp [hne]
          · simp only [if_neg hne]
            cases net (proxyUpstreamReq path req t) <;> simp
  · intro hm ht
    simp [proxy_request, hm, ht, isJsonErrorBody, jsonError]
  · intro t e hm ht hne hnet
    simp [proxy_request, hm, ht, hne, hnet, isJsonErrorBody, jsonError]

theorem c3_witness :
    ((proxy_request "p" noTargetReq netOk200).1 = [] ∧
     (proxy_request "p" noTargetReq netOk200).2.status = 400 ∧
     isJsonErrorBody (proxy_request "p" noTargetReq netOk200).2.body = true) ∧
    ((proxy_request "p" tgtReq netErr).1.length = 1 ∧
     (proxy_request "p" tgtReq netErr).2.status = 502 ∧
     isJsonErrorBody (proxy_request "p" tgtReq netErr).2.body = true) :=
  ⟨(c3_no_target_and_failure "p" noTargetReq netOk200).2.1 (by decide) (by decide),
   (c3_no_target_and_failure "p" tgtReq netErr).2.2 "https://api.example.com"
     "boom" (by decide) (by decide) (by decide) rfl⟩

theorem relayJson_trace (u : UpstreamRequest) (net : Net) (a b : String) :
    (relayJson u net a b).1 = [u] := by
  simp only [relayJson]
  cases hnet : net u with
  | requestException e => simp [hnet]
  | resp r =>
      cases h : respOk r
      · simp [hnet, h]
      · cases hb : r.jsonBody <;> simp [hnet, h, hb]

theorem update_stage_assignee_trace (cfg : Config) (bundle_id stage_id : String)
    (data : List (String × Json)) (net : Net) :
    (update_stage_assignee cfg bundle_id stage_id data net).1 =
      [assigneeReq cfg bundle_id stage_id data] := by
  simp only [update_stage_assignee]
  cases hnet : net (assigneeReq cfg bundle_id stage_id data) with
  | requestException e => simp [hnet]
  | resp r =>
      cases h : respOk r
      · simp [hnet, h]
      · by_cases hc : r.content = ""
        · simp [hnet, h, hc]
        · cases hb : r.jsonBody <;> simp [hnet, h, hb, hc]

theorem get_users_trace (cfg : Config) (net : Net) (hp : cfg.projectId ≠ "") :
    (get_users cfg net).1 = [usersReq cfg] := by
  simp only [get_users, if_neg hp]
  cases hnet : net (usersReq cfg) with
  | requestException e => simp [hnet]
  | resp r =>
      cases h : respOk r
      · simp [hnet, h]
      · cases hj : r.jsonBody with
        | none => simp [hnet, h, hj]
        | some j =>
            cases j with
            | arr cs => cases husers : usersFromJson cs <;> simp [hnet, h, hj, husers]
            | null => simp [hnet, h, hj]
            | bool b => simp [hnet, h, hj]
            | num n => simp [hnet, h, hj]
            | str s2 => simp [hnet, h, hj]
            | obj fs => simp [hnet, h, hj]

/-- C5 as stated is false: the stage-assignee endpoint receives a PUT but
issues a PATCH upstream (app.py line 223, and the comment at line 222 says
so), to a path without the `/assignee` suffix, with a rebuilt payload. -/
theorem c5_counterexample :
    ¬ (∀ u ∈ (update_stage_assignee cfg0 "b1" "s1" [] netOk200).1,
        u.method = "PUT") := by decide

/-- C5 (amended): each of the four endpoints contacts the one fixed upstream
host with exactly one request; /api/policies, /api/bundles and /api/users
forward a GET to the corresponding upstream path, while the stage-assignee
endpoint translates its incoming PUT into an upstream PATCH to
`/api/governance/v1/bundles/<bundle_id>/stages/<stage_id>` carrying
`\x7b"assignee": \x7b"id", "name"\x7d\x7d` (or `\x7b"assignee": null\x7d`)
rebuilt from the incoming payload rather than that payload itself. -/
theorem c5_amended_pass_through (cfg : Config) (net : Net)
    (bundle_id stage_id : String) (data : List (String × Json))
    (hp : cfg.projectId ≠ "") :
    (get_policies cfg net).1 = [policiesReq cfg] ∧
    (get_bundles cfg net).1 = [bundlesReq cfg] ∧
    (get_users cfg net).1 = [usersReq cfg] ∧
    (update_stage_assignee cfg bundle_id stage_id data net).1 =
      [assigneeReq cfg bundle_id stage_id data] ∧
    (policiesReq cfg).method = "GET" ∧
    (bundlesReq cfg).method = "GET" ∧
    (usersReq cfg).method = "GET" ∧
    (assigneeReq cfg bundle_id stage_id data).method = "PATCH" ∧
    (assigneeReq cfg bundle_id stage_id data).url =
      "https://" ++ cfg.domain ++ "/api/governance/v1/bundles/" ++ bundle_id ++
        "/stages/" ++ stage_id ∧
    (assigneeReq cfg bundle_id stage_id data).body =
      .jsonVal (assigneePayload data) :=
  ⟨relayJson_trace _ _ _ _, relayJson_trace _ _ _ _, get_users_trace cfg net hp,
   update_stage_assignee_trace cfg bundle_id stage_id data net,
   rfl, rfl, rfl, rfl, rfl, rfl⟩

theorem c5_amended_witness :
    (get_policies cfg0 netOk200).1 = [policiesReq cfg0] ∧
    (get_bundles cfg0 netOk200).1 = [bundlesReq cfg0] ∧
    (get_users cfg0 netOk200).1 = [usersReq cfg0] ∧
    (update_stage_assignee cfg0 "b1" "s1" [] netOk200).1 =
      [assigneeReq cfg0 "b1" "s1" []] ∧
    (policiesReq cfg0).method = "GET" ∧
    (bundlesReq cfg0).method = "GET" ∧
    (usersReq cfg0).method = "GET" ∧
    (assigneeReq cfg0 "b1" "s1" []).method = "PATCH" ∧
    (assigneeReq cfg0 "b1" "s1" []).url =
      "https://" ++ cfg0.domain ++ "/api/governance/v1/bundles/" ++ "b1" ++
        "/stages/" ++ "s1" ∧
    (assigneeReq cfg0 "b1" "s1" []).body = .jsonVal (assigneePayload []) :=
  c5_amended_pass_through cfg0 netOk200 "b1" "s1" [] (by decide)

theorem toList_take_one_append (s t : String) (h : s.toList.take 1 = ['/']) :
    (s ++ t).toList.take 1 = ['/'] := by
  have hdata : (s ++ t).toList = s.toList ++ t.toList := by
    simp [String.toList, String.data_append]
  rw [hdata]
  cases hs : s.toList with
  | nil => rw [hs] at h; simp at h
  | cons c cs =>
      rw [hs] at h
      have hc : c = '/' := by simpa using h
      simp [hc]

/-- C8: the host contacted by the four fixed-upstream endpoints is the
configured domain and does not depend on any part of the incoming request
(`bundle_id`, `stage_id`, payload and oracle are universally quantified;
the other two endpoints read nothing from the request at all).  The
hypothesis that the configured domain contains no slash holds for any host
name. -/
theorem c8_fixed_host (cfg : Config) (bundle_id stage_id : String)
    (data : List (String × Json)) (hd : '/' ∉ cfg.domain.toList) :
    hostOf (policiesReq cfg).url = cfg.domain ∧
    hostOf (bundlesReq cfg).url = cfg.domain ∧
    hostOf (usersReq cfg).url = cfg.domain ∧
    hostOf (assigneeReq cfg bundle_id stage_id data).url = cfg.domain := by
  refine ⟨?_, ?_, ?_, ?_⟩
  · exact hostOf_https cfg.domain "/api/governance/v1/policy-overviews" hd (by decide)
  · exact hostOf_https cfg.domain "/api/governance/v1/bundles" hd (by decide)
  · have hre : (usersReq cfg).url =
        "https://" ++ cfg.domain ++
          ("/v4/projects/" ++ cfg.projectId ++ "/collaborators") := by
      simp [usersReq, String.append_assoc]
    rw [hre]
    exact hostOf_https cfg.domain _ hd
      (toList_take_one_append _ _ (toList_take_one_append _ _ (by decide)))
  · have hre : (assigneeReq cfg bundle_id stage_id data).url =
        "https://" ++ cfg.domain ++
          ("/api/governance/v1/bundles/" ++ bundle_id ++ "/stages/" ++ stage_id) := by
      simp [assigneeReq, String.append_assoc]
    rw [hre]
    exact hostOf_https cfg.domain _ hd
      (toList_take_one_append _ _ (toList_take_one_append _ _
        (toList_take_one_append _ _ (by decide))))

theorem c8_witness :
    hostOf (policiesReq cfg0).url = cfg0.domain ∧
    hostOf (bundlesReq cfg0).url = cfg0.domain ∧
    hostOf (usersReq cfg0).url = cfg0.domain ∧
    hostOf (assigneeReq cfg0 "b1" "s1" []).url = cfg0.domain :=
  c8_fixed_host cfg0 "b1" "s1" [] (by decide)

theorem relayJson_ok (u : UpstreamRequest) (net : Net) (a b : String)
    (r : UpstreamResponse) (j : Json) (hnet : net u = .resp r)
    (hok : respOk r = true) (hj : r.jsonBody = some j) :
    (relayJson u net a b).2 = { status := 200, headers := [], body := .jsonVal j } := by
  simp [relayJson, hnet, hok, hj]

theorem relayJson_err (u : UpstreamRequest) (net : Net) (a b : String)
    (r : UpstreamResponse) (hnet : net u = .resp r) (hok : respOk r = false) :
    (relayJson u net a b).2.status = r.status ∧
    isJsonErrorBody (relayJson u net a b).2.body = true := by
  simp [relayJson, hnet, hok, isJsonErrorBody, jsonError]

theorem relayJson_exn (u : UpstreamRequest) (net : Net) (a b : String)
    (e : String) (hnet : net u = .requestException e) :
    (relayJson u net a b).2.status = 500 ∧
    isJsonErrorBody (relayJson u net a b).2.body = true := by
  simp [relayJson, hnet, isJsonErrorBody, jsonError]

/-- C9: for /api/policies and /api/bundles, an ok upstream response has its
JSON body relayed; a non-ok upstream status N yields a JSON error object
with the same status N; a raised network error yields status 500 with a
JSON error object. -/
theorem c9_policy_bundle_error_relay (cfg : Config) (net : Net) :
    (∀ r j, net (policiesReq cfg) = .resp r → respOk r = true →
      r.jsonBody = some j →
      (get_policies cfg net).2 = { status := 200, headers := [], body := .jsonVal j }) ∧
    (∀ r, net (policiesReq cfg) = .resp r → respOk r = false →
      (get_policies cfg net).2.status = r.status ∧
      isJsonErrorBody (get_policies cfg net).2.body = true) ∧
    (∀ e, net (policiesReq cfg) = .requestException e →
      (get_policies cfg net).2.status = 500 ∧
      isJsonErrorBody (get_policies cfg net).2.body = true) ∧
    (∀ r j, net (bundlesReq cfg) = .resp r → respOk r = true →
      r.jsonBody = some j →
      (get_bundles cfg net).2 = { status := 200, headers := [], body := .jsonVal j }) ∧
    (∀ r, net (bundlesReq cfg) = .resp r → respOk r = false →
      (get_bundles cfg net).2.status = r.status ∧
      isJsonErrorBody (get_bundles cfg net).2.body = true) ∧
    (∀ e, net (bundlesReq cfg) = .requestException e →
      (get_bundles cfg net).2.status = 500 ∧
      isJsonErrorBody (get_bundles cfg net).2.body = true) :=
  ⟨fun _ _ hnet hok hj => relayJson_ok _ _ _ _ _ _ hnet hok hj,
   fun _ hnet hok => relayJson_err _ _ _ _ _ hnet hok,
   fun _ hnet => relayJson_exn _ _ _ _ _ hnet,
   fun _ _ hnet hok hj => relayJson_ok _ _ _ _ _ _ hnet hok hj,
   fun _ hnet hok => relayJson_err _ _ _ _ _ hnet hok,
   fun _ hnet => relayJson_exn _ _ _ _ _ hnet⟩

theorem c9_witness :
    ((get_policies cfg0 (netJson (.obj [("data", .arr [])]))).2 =
      { status := 200, headers := [],
        body := .jsonVal (.obj [("data", .arr [])]) }) ∧
    ((get_bundles cfg0 net503).2.status = 503 ∧
      isJsonErrorBody (get_bundles cfg0 net503).2.body = true) ∧
    ((get_policies cfg0 netErr).2.status = 500 ∧
      isJsonErrorBody (get_policies cfg0 netErr).2.body = true) :=
  ⟨(c9_policy_bundle_error_relay cfg0 (netJson (.obj [("data", .arr [])]))).1
      _ _ rfl rfl rfl,
   (c9_policy_bundle_error_relay cfg0 net503).2.2.2.2.1 _ rfl rfl,
   (c9_policy_bundle_error_relay cfg0 netErr).2.2.1 _ rfl⟩

/-- C10 as stated is false: for a collaborator with firstName `" "` (not
empty, not missing) and no lastName, the claimed rule yields fullName `""`,
but the handler returns fullName `"bob"` (the userName), because the code
falls back whenever the stripped join is empty (`.strip() or userName`). -/
theorem c10_counterexample :
    fullNameOf wsPerson = Json.str "bob" ∧
    claimFullName wsPerson = Json.str "" ∧
    Json.str "bob" ≠ Json.str "" ∧
    (get_users cfg0 (netJson (.arr [.obj wsPerson]))).2.body =
      .jsonVal (.obj [("users", .arr [.obj
        [("id", .str "1"), ("username", .str "bob"),
         ("fullName", .str "bob")]])]) := by
  refine ⟨rfl, rfl, ?_, rfl⟩
  intro h
  injection h with h2
  exact absurd h2 (by decide)

/-- C10 (amended): when the upstream returns a JSON list of collaborator
dicts, the handler answers 200 with `\x7b"users": L\x7d` where `L` keeps the
upstream length and order and each element is mapped to its `id`, its
`userName` as `username`, and as `fullName` the space-joined
firstName/lastName stripped of surrounding whitespace, falling back to
`userName` whenever that stripped join is empty (fields missing, empty, or
whitespace-only). -/
theorem c10_amended_users_transform (cfg : Config)
    (ps : List (List (String × Json))) (hp : cfg.projectId ≠ "") :
    (get_users cfg (netJson (.arr (ps.map .obj)))).2 =
      { status := 200, headers := [],
        body := .jsonVal (.obj [("users", .arr (ps.map (fun p =>
          Json.obj [("id", (alGet p "id").getD .null),
                    ("username", (alGet p "userName").getD .null),
                    ("fullName", fullNameOf p)])))]) } ∧
    (ps.map personToUser).length = ps.length ∧
    ∀ p : List (String × Json),
      fullNameOf p =
        (if pyStrip (pyToStr ((alGet p "firstName").getD (.str "")) ++ " " ++
            pyToStr ((alGet p "lastName").getD (.str ""))) = ""
         then (alGet p "userName").getD .null
         else .str (pyStrip
           (pyToStr ((alGet p "firstName").getD (.str "")) ++ " " ++
            pyToStr ((alGet p "lastName").getD (.str ""))))) := by
  have husers : usersFromJson (ps.map .obj) = some (ps.map personToUser) := by
    induction ps with
    | nil => rfl
    | cons p ps ih => simp [usersFromJson, ih]
  refine ⟨?_, by simp, fun p => rfl⟩
  simp [get_users, hp, netJson, husers, respOk, personToUser]

theorem c10_amended_witness :
    ((get_users cfg0 (netJson (.arr ([wsPerson].map .obj)))).2 =
      { status := 200, headers := [],
        body := .jsonVal (.obj [("users", .arr ([wsPerson].map (fun p =>
          Json.obj [("id", (alGet p "id").getD .null),
                    ("username", (alGet p "userName").getD .null),
                    ("fullName", fullNameOf p)])))]) } ∧
    ([wsPerson].map personToUser).length = [wsPerson].length ∧
    ∀ p : List (String × Json),
      fullNameOf p =
        (if pyStrip (pyToStr ((alGet p "firstName").getD (.str "")) ++ " " ++
            pyToStr ((alGet p "lastName").getD (.str ""))) = ""
         then (alGet p "userName").getD .null
         else .str (pyStrip
           (pyToStr ((alGet p "firstName").getD (.str "")) ++ " " ++
            pyToStr ((alGet p "lastName").getD (.str "")))))) :=
  c10_amended_users_transform cfg0 [wsPerson] (by decide)

end SceQc
